import Mathlib

/-
Verification development for the BMI checker bot (src/bmi_bot.py).

The Python source works on machine floats; the embedding models numeric
values as exact rationals (ℚ) and integers (ℤ).  Python's `round`
(round-half-to-even) is modelled by `pyRound`/`pyRoundTo`, Python's `int()`
(truncation toward zero) by `pyInt`.  String processing is modelled over
`List Char`; `str.replace`, `str.split()`, `str.strip()`, `str.lower()` and
`float()` are embedded by `replaceL`, `splitWs`, `trimL`, `lowerL` and
`pyFloat` (the last three on the ASCII/simple-decimal-literal sublanguage
actually exercised by the bot's inputs).  A parser attempt that Python
answers by re-prompting (bad format, failed `float()`, bad unit,
non-positive weight) is modelled as `none`.
-/

/-- Python `round(q)`: round to the nearest integer, ties to the even
integer (banker's rounding), modelled on exact rationals. -/
def pyRound (q : ℚ) : ℤ :=
  if q - ⌊q⌋ < 1/2 then ⌊q⌋
  else if 1/2 < q - ⌊q⌋ then ⌊q⌋ + 1
  else if ⌊q⌋ % 2 = 0 then ⌊q⌋ else ⌊q⌋ + 1

/-- Python `int(q)`: truncation toward zero. -/
def pyInt (q : ℚ) : ℤ := if 0 ≤ q then ⌊q⌋ else -⌊-q⌋

/-- Python `round(q, n)`: round to `n` decimal places (ties to even). -/
def pyRoundTo (n : ℕ) (q : ℚ) : ℚ := (pyRound (q * 10 ^ n) : ℚ) / 10 ^ n

/-- The full plan dictionary built by `recommend_calories_for_weight_loss`
in src/bmi_bot.py (lines 233-241), one field per dictionary key. -/
structure Plan where
  kg_to_lose : ℚ
  total_kcal_needed : ℤ
  daily_deficit : ℤ
  suggested_daily_calories : ℤ
  warnings : List String
  weekly_loss_kg : ℚ
  estimated_weeks_needed : ℚ
deriving Repr, DecidableEq

/-- Result of `recommend_calories_for_weight_loss`: either the message-only
dictionary returned at line 206 of src/bmi_bot.py (no numeric field is
present in it), or the full plan dictionary. -/
inductive PlanResult where
  | message (text : String)
  | plan (p : Plan)
deriving Repr, DecidableEq

/-- The plan carried by a `PlanResult`, if it is not message-only. -/
def PlanResult.toPlan : PlanResult → Option Plan
  | .message _ => none
  | .plan p => some p

/-- The clamp warning string of src/bmi_bot.py line 216. -/
def clampWarning : String :=
  "Required deficit exceeds common safety recommendations; using max safe deficit of 1000 kcal/day. Consider a longer timeframe or consult a professional."

/-- The minimum-intake warning string of src/bmi_bot.py line 229, with
min_cal = 1200 already formatted in. -/
def minCalWarning : String :=
  "Calculated intake would fall below minimum recommended calories (1200 kcal/day). Use caution and consult a professional."

/-- The daily deficit before the safety clamp (src/bmi_bot.py line 209):
`total_kcal_needed / max(days, 1)`. -/
def daily_deficit_unclamped (current_weight target_weight : ℚ) (days : ℤ) : ℚ :=
  (current_weight - target_weight) * 7700 / ((max days 1 : ℤ) : ℚ)

/-- Embeds `recommend_calories_for_weight_loss` (src/bmi_bot.py lines
202-241).  Note that, as in the source, `weekly_loss_kg` is computed at
line 213 from the deficit BEFORE the clamp of lines 214-219 reassigns
`daily_deficit`.  The `sex` parameter is accepted and unused, as in the
source. -/
def recommend_calories_for_weight_loss (current_weight target_weight tdee : ℚ)
    (days : ℤ) (sex : String) : PlanResult :=
  let kg_to_lose := current_weight - target_weight
  if kg_to_lose ≤ 0 then
    .message "Target weight is not less than current weight. No calorie deficit needed."
  else
    let total_kcal_needed := kg_to_lose * 7700
    let daily_deficit := total_kcal_needed / ((max days 1 : ℤ) : ℚ)
    let max_safe_deficit : ℚ := 1000
    let weekly_loss_kg := daily_deficit * 7 / 7700
    let clamped := max_safe_deficit < daily_deficit
    let daily_deficit2 := if clamped then max_safe_deficit else daily_deficit
    let suggested_daily := tdee - daily_deficit2
    let est_weeks_needed :=
      if clamped then kg_to_lose * 7700 / (daily_deficit2 * 7) else (days : ℚ) / 7
    let min_cal : ℚ := 1200
    let suggested_daily2 := if suggested_daily < min_cal then min_cal else suggested_daily
    let warnings :=
      (if clamped then [clampWarning] else []) ++
      (if suggested_daily < min_cal then [minCalWarning] else [])
  .plan {
    kg_to_lose := pyRoundTo 2 kg_to_lose
    total_kcal_needed := pyInt total_kcal_needed
    daily_deficit := pyInt daily_deficit2
    suggested_daily_calories := pyInt suggested_daily2
    warnings := warnings
    weekly_loss_kg := pyRoundTo 3 weekly_loss_kg
    estimated_weeks_needed := pyRoundTo 1 est_weeks_needed }

/-- Warnings of a plan result; a message-only result carries none. -/
def planWarnings (r : PlanResult) : List String :=
  (r.toPlan.map Plan.warnings).getD []

/-- Output aggregate of `recommend_macros` (src/bmi_bot.py lines 192-199),
one field per dictionary key. -/
structure MacroBreakdown where
  protein_g : ℤ
  fat_g : ℤ
  carb_g : ℤ
  protein_kcal : ℤ
  fat_kcal : ℤ
  carb_kcal : ℤ
deriving Repr, DecidableEq

/-- The `activity_to_protein` table of src/bmi_bot.py lines 172-178
(grams of protein per kilogram of body mass, per activity key). -/
def activity_to_protein_table : List (String × ℚ) :=
  [("1", 16/10), ("2", 16/10), ("3", 18/10), ("4", 2), ("5", 22/10)]

/-- `activity_to_protein.get(activity_key, 1.6)` of src/bmi_bot.py line 179. -/
def activity_to_protein (activity_key : String) : ℚ :=
  (activity_to_protein_table.lookup activity_key).getD (16/10)

/-- The rational carbohydrate remainder computed at src/bmi_bot.py line 189:
`suggested_calories - (protein_kcal + fat_kcal)`. -/
def macroRemaining (suggested_calories : ℤ) (weight_kg : ℚ) (activity_key : String) : ℚ :=
  (suggested_calories : ℚ) -
    ((pyRound (activity_to_protein activity_key * weight_kg) * 4 : ℤ) +
      (suggested_calories : ℚ) * (28/100))

/-- Embeds `recommend_macros` (src/bmi_bot.py lines 170-199).  The fat
fraction 0.28 is the exact rational 28/100. -/
def recommend_macros (suggested_calories : ℤ) (weight_kg : ℚ) (activity_key : String) :
    MacroBreakdown :=
  let protein_g := pyRound (activity_to_protein activity_key * weight_kg)
  let protein_kcal := protein_g * 4
  let fat_kcal : ℚ := (suggested_calories : ℚ) * (28/100)
  let fat_g := pyRound (fat_kcal / 9)
  let remaining_kcal : ℚ := (suggested_calories : ℚ) - ((protein_kcal : ℚ) + fat_kcal)
  let carb_g := max (pyRound (remaining_kcal / 4)) 0
  { protein_g := protein_g
    fat_g := fat_g
    carb_g := carb_g
    protein_kcal := protein_kcal
    fat_kcal := pyInt fat_kcal
    carb_kcal := pyInt (if 0 < remaining_kcal then remaining_kcal else 0) }

/-- The `ACTIVITY_LEVELS` table of src/bmi_bot.py lines 15-21:
key ↦ (label, BMR multiplier). -/
def ACTIVITY_LEVELS : List (String × String × ℚ) :=
  [("1", "sedentary (little or no exercise)", 12/10),
   ("2", "lightly active (light exercise 1-3 days/week)", 1375/1000),
   ("3", "moderately active (moderate exercise 3-5 days/week)", 155/100),
   ("4", "very active (hard exercise 6-7 days/week)", 1725/1000),
   ("5", "extra active (very hard exercise / physical job)", 19/10)]

/-- `ACTIVITY_LEVELS.get(activity_key, (None, 1.2))[1]` of src/bmi_bot.py
line 163 (the default's label slot is irrelevant and modelled as ""). -/
def activityMultiplier (activity_key : String) : ℚ :=
  ((ACTIVITY_LEVELS.lookup activity_key).getD ("", 12/10)).2

/-- The upper-to-lower letter table behind `lowerChar`. -/
def lowerTable : List (Char × Char) :=
  [('A', 'a'), ('B', 'b'), ('C', 'c'), ('D', 'd'), ('E', 'e'), ('F', 'f'),
   ('G', 'g'), ('H', 'h'), ('I', 'i'), ('J', 'j'), ('K', 'k'), ('L', 'l'),
   ('M', 'm'), ('N', 'n'), ('O', 'o'), ('P', 'p'), ('Q', 'q'), ('R', 'r'),
   ('S', 's'), ('T', 't'), ('U', 'u'), ('V', 'v'), ('W', 'w'), ('X', 'x'),
   ('Y', 'y'), ('Z', 'z')]

/-- Lowercase an ASCII character (model of Python `str.lower` on the ASCII
inputs the bot handles), written as an explicit letter table. -/
def lowerChar (c : Char) : Char := (lowerTable.lookup c).getD c

/-- The characters Python's fused weight scan and `parse_height`'s numeric
token filter treat as numeric: decimal digits and the period. -/
def digitDotChars : List Char :=
  ['0', '1', '2', '3', '4', '5', '6', '7', '8', '9', '.']

/-- Embeds `bmr_mifflin_sex` (src/bmi_bot.py lines 146-158): Mifflin-St
Jeor, with the male/female variant chosen by the first letter of the
lowercased sex token and the average of both otherwise. -/
def bmr_mifflin_sex (weight height_cm : ℚ) (age : ℤ) (sex : String) : ℚ :=
  let s := String.mk (sex.toList.map lowerChar)
  if s.startsWith "m" then 10 * weight + 625/100 * height_cm - 5 * age + 5
  else if s.startsWith "f" then 10 * weight + 625/100 * height_cm - 5 * age - 161
  else
    ((10 * weight + 625/100 * height_cm - 5 * age + 5) +
     (10 * weight + 625/100 * height_cm - 5 * age - 161)) / 2

/-- Embeds `estimate_tdee` (src/bmi_bot.py lines 161-165): BMR times the
activity multiplier, rounded to the nearest integer. -/
def estimate_tdee (weight height_cm : ℚ) (age : ℤ) (sex activity_key : String) : ℤ :=
  pyRound (bmr_mifflin_sex weight height_cm age sex * activityMultiplier activity_key)

/-- Does `pat` begin the list `s`? -/
def beginsWith : List Char → List Char → Bool
  | [], _ => true
  | _ :: _, [] => false
  | a :: as, b :: bs => a == b && beginsWith as bs

/-- Worker for `replaceL`: scan `s` left to right; `skip > 0` means the
next `skip` characters belong to an occurrence already replaced. -/
def replaceGo (pat repl : List Char) : List Char → ℕ → List Char
  | [], _ => []
  | c :: rest, 0 =>
    if pat ≠ [] ∧ beginsWith pat (c :: rest) then
      repl ++ replaceGo pat repl rest (pat.length - 1)
    else c :: replaceGo pat repl rest 0
  | _ :: rest, n + 1 => replaceGo pat repl rest n

/-- Python `s.replace(pat, repl)`: replace every occurrence of `pat`,
scanning left to right without overlap. -/
def replaceL (pat repl s : List Char) : List Char := replaceGo pat repl s 0

/-- Python `pat in s`: contiguous-substring test. -/
def containsSub (pat : List Char) : List Char → Bool
  | [] => beginsWith pat []
  | c :: rest => beginsWith pat (c :: rest) || containsSub pat rest

/-- Worker for `splitWs`, carrying the reversed current token. -/
def splitWsAux : List Char → List Char → List (List Char)
  | [], acc => if acc = [] then [] else [acc.reverse]
  | c :: rest, acc =>
    if c.isWhitespace then
      if acc = [] then splitWsAux rest [] else acc.reverse :: splitWsAux rest []
    else splitWsAux rest (c :: acc)

/-- Python `s.split()`: split on runs of whitespace, no empty tokens. -/
def splitWs (s : List Char) : List (List Char) := splitWsAux s []

/-- Python `s.strip()`: drop leading and trailing whitespace. -/
def trimL (s : List Char) : List Char :=
  ((s.dropWhile Char.isWhitespace).reverse.dropWhile Char.isWhitespace).reverse

/-- Python `s.lower()` (ASCII model). -/
def lowerL (s : List Char) : List Char := s.map lowerChar

/-- Replace every occurrence of the character `c` by `d` (how the source
uses `str.replace` on the one-character pattern `','`). -/
def charMap (c d : Char) (s : List Char) : List Char :=
  s.map fun x => if x = c then d else x

/-- Value of a list of decimal digits. -/
def digitsVal (l : List Char) : ℕ := l.foldl (fun a c => 10 * a + (c.toNat - 48)) 0

/-- Digit-level half of the `float()` model: sign, integer-part value,
fractional-part value and fractional length of a simple decimal literal
(an optional sign, then digits with at most one decimal point and at
least one digit); `none` for anything else. -/
def floatParse (s : List Char) : Option (Bool × ℕ × ℕ × ℕ) :=
  let neg := s.headD ' ' == '-'
  let rest := if neg || s.headD ' ' == '+' then s.tail else s
  if (rest.all fun c => c.isDigit || c == '.') ∧ rest.count '.' ≤ 1 ∧ rest.any Char.isDigit then
    let ip := rest.takeWhile fun c => c ≠ '.'
    let fp := (rest.dropWhile fun c => c ≠ '.').tail
    some (neg, digitsVal ip, digitsVal fp, fp.length)
  else none

/-- Model of Python `float()` on the simple decimal literals the bot's
token grammar produces.  Anything `floatParse` rejects (including the
empty string) raises in Python and is `none` here; exponents and
non-ASCII forms are outside the modelled sublanguage. -/
def pyFloat (s : List Char) : Option ℚ :=
  (floatParse s).map fun r =>
    (if r.1 then (-1 : ℚ) else 1) * ((r.2.1 : ℚ) + (r.2.2.1 : ℚ) / 10 ^ r.2.2.2)

/-- Decide how a weight value with a given unit token becomes kilograms
(src/bmi_bot.py lines 66-76): unit starting `k` is kilograms, starting `l`
is pounds (factor 0.45359237), anything else re-prompts; a non-positive
result re-prompts. -/
def weightFromUnit (val : ℚ) (unit : List Char) : Option ℚ :=
  if unit.headD ' ' == 'k' then
    if val ≤ 0 then none else some (pyRoundTo 2 val)
  else if unit.headD ' ' == 'l' then
    let kg := val * (45359237/100000000)
    if kg ≤ 0 then none else some (pyRoundTo 2 kg)
  else none

/-- Unit-synonym normalization of `parse_weight` (src/bmi_bot.py line 48):
`kgs` to `kg`, then `lbs` to `lb`. -/
def weightNormalize (raw0 : List Char) : List Char :=
  replaceL "lbs".toList "lb".toList (replaceL "kgs".toList "kg".toList raw0)

/-- Tokenization of src/bmi_bot.py line 49 (also line 91): substitute
commas by periods, then split on whitespace. -/
def commaParts (raw : List Char) : List (List Char) := splitWs (charMap ',' '.' raw)

/-- The body of `parse_weight` after tokenization (src/bmi_bot.py lines
50-76): a lone token is scanned into its digit/period characters and its
other characters (unit defaulting to `kg`); two or more tokens are value
then unit; then the unit decides the conversion. -/
def weightFromParts (parts : List (List Char)) : Option ℚ :=
  match parts with
  | [] => none
  | [token] =>
    let num := token.filter fun c => c.isDigit || c == '.'
    let unit := token.filter fun c => !(c.isDigit || c == '.')
    match pyFloat num with
    | none => none
    | some val => weightFromUnit val (if unit = [] then "kg".toList else unit)
  | p1 :: p2 :: _ =>
    match pyFloat p1 with
    | none => none
    | some val => weightFromUnit val p2

/-- Embeds one prompt attempt of `parse_weight` (src/bmi_bot.py lines
39-78), from the raw input string to the rounded kilogram value; `none`
wherever the Python loop would print an error and re-prompt. -/
def parse_weight (input : String) : Option ℚ :=
  let raw0 := lowerL (trimL input.toList)
  if raw0 = [] then none
  else weightFromParts (commaParts (weightNormalize raw0))

/-- The token scan of src/bmi_bot.py lines 108-113: walk the tokens with
their predecessor; a `ft` (`in`) token takes the float of the token before
it as the feet (inches) component, later occurrences overwriting earlier
ones; a failing `float()` aborts the whole attempt (`none`). -/
def ftScan : Option (List Char) → List (List Char) → Option ℚ → ℚ →
    Option (Option ℚ × ℚ)
  | _, [], ft, inch => some (ft, inch)
  | prev, t :: rest, ft, inch =>
    if t = "ft".toList then
      match prev with
      | none => ftScan (some t) rest ft inch
      | some p =>
        match pyFloat p with
        | none => none
        | some v => ftScan (some t) rest (some v) inch
    else if t = "in".toList then
      match prev with
      | none => ftScan (some t) rest ft inch
      | some p =>
        match pyFloat p with
        | none => none
        | some v => ftScan (some t) rest ft v
    else ftScan (some t) rest ft inch

/-- Unit-synonym normalization of `parse_height` (src/bmi_bot.py lines
89-90): a double quote becomes ` in`, a single quote ` ft `, `feet`
becomes `ft`, `meter` becomes `m`, and `cms` becomes `cm`, in source
order. -/
def heightNormalize (raw0 : List Char) : List Char :=
  replaceL "cms".toList "cm".toList
    (replaceL "meter".toList "m".toList
      (replaceL "feet".toList "ft".toList
        (replaceL "'".toList " ft ".toList
          (replaceL "\"".toList " in".toList raw0))))

/-- The foot/inch half of `parse_height` (src/bmi_bot.py lines 103-124),
reached when the simple-centimetre branch does not fire.  `raw` is the
unit-normalized string WITHOUT the comma-to-period substitution (the
source re-tokenizes `raw`, not the comma-substituted string); `parts` are
the comma-substituted tokens. -/
def heightFtBranch (raw : List Char) (parts : List (List Char)) : Option ℚ :=
  if containsSub "ft".toList raw || containsSub "foot".toList raw then
    let tokens := splitWs (replaceL "in".toList " in ".toList (replaceL "ft".toList " ft ".toList raw))
    match ftScan none tokens none 0 with
    | none => none
    | some (none, _) => none
    | some (some f, inch) => some (pyRoundTo 1 (f * (3048/100) + inch * (254/100)))
  else
    let nums := parts.filter fun p => p.all fun c => c.isDigit || c == '.'
    match nums with
    | n1 :: n2 :: _ =>
      (match pyFloat n1, pyFloat n2 with
       | some f, some i => some (pyRoundTo 1 (f * (3048/100) + i * (254/100)))
       | _, _ => none)
    | _ => none

/-- The dispatch of `parse_height` on the unit-normalized string `raw`
(src/bmi_bot.py lines 91-124): tokenize with commas substituted; a lone
token, or two tokens with the second starting `c`, is the bare-number/cm
branch of lines 93-101 (with both the `< 3` and the `<= 3` meter
heuristics of lines 95-98); anything else goes to the foot/inch branch. -/
def heightFromRaw (raw : List Char) : Option ℚ :=
  let parts := commaParts raw
  if parts.length = 1 ∨ (parts.length = 2 ∧ (parts.getD 1 []).headD ' ' = 'c') then
    match pyFloat (parts.headD []) with
    | none => none
    | some num =>
      if parts.length = 1 ∧ num < 3 then some (pyRoundTo 1 (num * 100))
      else if parts.length = 1 ∧ num ≤ 3 then some (pyRoundTo 1 (num * 100))
      else some (pyRoundTo 1 num)
  else heightFtBranch raw parts

/-- Embeds one prompt attempt of `parse_height` (src/bmi_bot.py lines
81-126), from the raw input string to the rounded centimetre value; `none`
wherever the Python loop would print an error and re-prompt.  Mirrors the
source exactly: the unit-synonym replacements of lines 89-90, the
comma-substituted tokenization of line 91, the bare-number/cm branch of
lines 93-101, and the foot/inch handling of lines 103-124. -/
def parse_height (input : String) : Option ℚ :=
  let raw0 := lowerL (trimL input.toList)
  if raw0 = [] then none
  else heightFromRaw (heightNormalize raw0)

/-- Substitute every comma in a string by a period (the input
transformation claim C10 compares against). -/
def commaToDot (s : String) : String := String.mk (charMap ',' '.' s.toList)

/-! ## Helper lemmas -/

theorem recommend_eq_plan (cw tw tdee : ℚ) (days : ℤ) (sex : String) (h : tw < cw) :
    recommend_calories_for_weight_loss cw tw tdee days sex =
      .plan {
        kg_to_lose := pyRoundTo 2 (cw - tw)
        total_kcal_needed := pyInt ((cw - tw) * 7700)
        daily_deficit := pyInt (if 1000 < daily_deficit_unclamped cw tw days then 1000
          else daily_deficit_unclamped cw tw days)
        suggested_daily_calories := pyInt
          (if tdee - (if 1000 < daily_deficit_unclamped cw tw days then 1000
              else daily_deficit_unclamped cw tw days) < 1200 then 1200
            else tdee - (if 1000 < daily_deficit_unclamped cw tw days then 1000
              else daily_deficit_unclamped cw tw days))
        warnings :=
          (if 1000 < daily_deficit_unclamped cw tw days then [clampWarning] else []) ++
          (if tdee - (if 1000 < daily_deficit_unclamped cw tw days then 1000
              else daily_deficit_unclamped cw tw days) < 1200 then [minCalWarning] else [])
        weekly_loss_kg := pyRoundTo 3 (daily_deficit_unclamped cw tw days * 7 / 7700)
        estimated_weeks_needed := pyRoundTo 1
          (if 1000 < daily_deficit_unclamped cw tw days then
            (cw - tw) * 7700 /
              ((if 1000 < daily_deficit_unclamped cw tw days then 1000
                else daily_deficit_unclamped cw tw days) * 7)
          else (days : ℚ) / 7) } := by
  rw [recommend_calories_for_weight_loss, if_neg (by linarith : ¬(cw - tw ≤ 0))]
  rfl

/-! ## Claims about the planning engine -/

/-- C1 (amended): for every planning call with target mass strictly below
current mass, the reported `weekly_loss_kg` equals `(deficit * 7) / 7700`
rounded to 3 decimal places where `deficit` is the UNCLAMPED daily deficit
`total_kcal_needed / max(days, 1)` — the source computes `weekly_loss_kg`
at line 213, before the safety clamp of lines 214-219 reassigns
`daily_deficit`, so the clamp never affects the reported weekly loss. -/
theorem C1_weekly_loss_from_preclamp_deficit (cw tw tdee : ℚ) (days : ℤ) (sex : String)
    (h : tw < cw) :
    (recommend_calories_for_weight_loss cw tw tdee days sex).toPlan.map Plan.weekly_loss_kg
      = some (pyRoundTo 3 (daily_deficit_unclamped cw tw days * 7 / 7700)) := by
  rw [recommend_eq_plan cw tw tdee days sex h]
  rfl

/-- Witness for C1 at the concrete input (90, 80, 2500, 70). -/
theorem C1_weekly_loss_from_preclamp_deficit_witness :
    (recommend_calories_for_weight_loss 90 80 2500 70 "other").toPlan.map Plan.weekly_loss_kg
      = some (pyRoundTo 3 (daily_deficit_unclamped 90 80 70 * 7 / 7700)) :=
  C1_weekly_loss_from_preclamp_deficit 90 80 2500 70 "other" (by norm_num)

/-- C1 counterexample: at (90, 80, 2500, 70) the clamp fires (the clamp
warning is attached), yet the reported weekly loss is 1.0 — computed from
the unclamped deficit 1100 — and not round(1000*7/7700, 3) = 0.909 as the
claim states. -/
theorem C1_counterexample :
    (recommend_calories_for_weight_loss 90 80 2500 70 "other").toPlan.map Plan.weekly_loss_kg
        = some 1 ∧
    clampWarning ∈ planWarnings (recommend_calories_for_weight_loss 90 80 2500 70 "other") ∧
    pyRoundTo 3 (1000 * 7 / 7700) = 909/1000 ∧
    (1 : ℚ) ≠ 909/1000 := by
  have hD : daily_deficit_unclamped 90 80 70 = 1100 := by
    norm_num [daily_deficit_unclamped]
  refine ⟨?_, ?_, by norm_num [pyRoundTo, pyRound], by norm_num⟩
  · rw [recommend_eq_plan 90 80 2500 70 "other" (by norm_num)]
    simp only [PlanResult.toPlan, Option.map_some', hD]
    norm_num [pyRoundTo, pyRound]
  · rw [recommend_eq_plan 90 80 2500 70 "other" (by norm_num)]
    simp only [planWarnings, PlanResult.toPlan, Option.map_some', hD, Option.getD_some]
    norm_num

/-- C5: whenever the unclamped daily deficit exceeds 1000 kcal/day, the
plan reports a deficit of exactly 1000, recomputes the estimated weeks as
`total_kcal_needed / (1000 * 7)` (rounded to 1 decimal, as reported), and
attaches the clamp warning; otherwise the estimate is `days / 7` (rounded
to 1 decimal) and no clamp warning is attached. -/
theorem C5_safety_clamp (cw tw tdee : ℚ) (days : ℤ) (sex : String) (h : tw < cw) :
    (1000 < daily_deficit_unclamped cw tw days →
      (recommend_calories_for_weight_loss cw tw tdee days sex).toPlan.map Plan.daily_deficit
          = some 1000 ∧
      (recommend_calories_for_weight_loss cw tw tdee days sex).toPlan.map
          Plan.estimated_weeks_needed
          = some (pyRoundTo 1 ((cw - tw) * 7700 / (1000 * 7))) ∧
      clampWarning ∈ planWarnings (recommend_calories_for_weight_loss cw tw tdee days sex)) ∧
    (daily_deficit_unclamped cw tw days ≤ 1000 →
      (recommend_calories_for_weight_loss cw tw tdee days sex).toPlan.map
          Plan.estimated_weeks_needed
          = some (pyRoundTo 1 ((days : ℚ) / 7)) ∧
      clampWarning ∉ planWarnings (recommend_calories_for_weight_loss cw tw tdee days sex)) := by
  rw [recommend_eq_plan cw tw tdee days sex h]
  constructor
  · intro hD
    simp only [PlanResult.toPlan, planWarnings, Option.map_some', Option.getD_some,
      if_pos hD]
    refine ⟨by norm_num [pyInt], trivial, by simp⟩
  · intro hD
    have hD' : ¬(1000 < daily_deficit_unclamped cw tw days) := not_lt.mpr hD
    simp only [PlanResult.toPlan, planWarnings, Option.map_some', Option.getD_some,
      if_neg hD']
    refine ⟨trivial, ?_⟩
    simp only [List.nil_append]
    split_ifs with hfl
    · simp [clampWarning, minCalWarning]
    · simp

/-- Witness for C5 at the concrete input (90, 80, 2500, 70) of the claim:
total 77000 kcal, unclamped deficit 1100 triggers the clamp, reported
deficit 1000, suggested intake 1500, estimated weeks 11.0, clamp warning
present. -/
theorem C5_safety_clamp_witness :
    (recommend_calories_for_weight_loss 90 80 2500 70 "other").toPlan.map Plan.daily_deficit
        = some 1000 ∧
    (recommend_calories_for_weight_loss 90 80 2500 70 "other").toPlan.map
        Plan.estimated_weeks_needed = some 11 ∧
    clampWarning ∈ planWarnings (recommend_calories_for_weight_loss 90 80 2500 70 "other") ∧
    (recommend_calories_for_weight_loss 90 80 2500 70 "other").toPlan.map Plan.total_kcal_needed
        = some 77000 ∧
    (recommend_calories_for_weight_loss 90 80 2500 70 "other").toPlan.map
        Plan.suggested_daily_calories = some 1500 := by
  have hD : daily_deficit_unclamped 90 80 70 = 1100 := by
    norm_num [daily_deficit_unclamped]
  obtain ⟨h1, h2, h3⟩ :=
    (C5_safety_clamp 90 80 2500 70 "other" (by norm_num)).1 (by rw [hD]; norm_num)
  refine ⟨h1, h2.trans ?_, h3, ?_, ?_⟩
  · norm_num [pyRoundTo, pyRound]
  · rw [recommend_eq_plan 90 80 2500 70 "other" (by norm_num)]
    simp only [PlanResult.toPlan, Option.map_some']
    norm_num [pyInt]
  · rw [recommend_eq_plan 90 80 2500 70 "other" (by norm_num)]
    simp only [PlanResult.toPlan, Option.map_some', hD]
    norm_num [pyInt]

/-- C6: if, after the clamp, tdee minus the deficit falls below 1200, the
suggested intake is raised to exactly 1200 and the independent floor
warning is attached (and it is absent otherwise); the warnings list never
has more than two entries, and any input with unclamped deficit above
1000 and tdee below 2200 gets exactly the two warnings. -/
theorem C6_minimum_intake_floor (cw tw tdee : ℚ) (days : ℤ) (sex : String) (h : tw < cw) :
    (tdee - (if 1000 < daily_deficit_unclamped cw tw days then 1000
        else daily_deficit_unclamped cw tw days) < 1200 →
      (recommend_calories_for_weight_loss cw tw tdee days sex).toPlan.map
          Plan.suggested_daily_calories = some 1200 ∧
      minCalWarning ∈ planWarnings (recommend_calories_for_weight_loss cw tw tdee days sex)) ∧
    (1200 ≤ tdee - (if 1000 < daily_deficit_unclamped cw tw days then 1000
        else daily_deficit_unclamped cw tw days) →
      minCalWarning ∉ planWarnings (recommend_calories_for_weight_loss cw tw tdee days sex)) ∧
    (planWarnings (recommend_calories_for_weight_loss cw tw tdee days sex)).length ≤ 2 ∧
    (1000 < daily_deficit_unclamped cw tw days → tdee < 2200 →
      planWarnings (recommend_calories_for_weight_loss cw tw tdee days sex)
        = [clampWarning, minCalWarning]) := by
  rw [recommend_eq_plan cw tw tdee days sex h]
  simp only [PlanResult.toPlan, planWarnings, Option.map_some', Option.getD_some]
  refine ⟨?_, ?_, ?_, ?_⟩
  · intro hfl
    simp only [if_pos hfl]
    refine ⟨by norm_num [pyInt], by split_ifs <;> simp⟩
  · intro hfl
    have hfl' : ¬(tdee - (if 1000 < daily_deficit_unclamped cw tw days then 1000
        else daily_deficit_unclamped cw tw days) < 1200) := not_lt.mpr hfl
    simp only [if_neg hfl']
    split_ifs with hc
    · simp [clampWarning, minCalWarning]
    · simp
  · split_ifs <;> simp
  · intro hD htd
    have hfl : tdee - (1000 : ℚ) < 1200 := by linarith
    simp [if_pos hD, if_pos hfl]

/-- Witness for C6 at (90, 80, 2000, 70): the unclamped deficit 1100
exceeds 1000 and tdee = 2000 < 2200, so the suggested intake is floored
at 1200 and both warnings are attached. -/
theorem C6_minimum_intake_floor_witness :
    (recommend_calories_for_weight_loss 90 80 2000 70 "other").toPlan.map
        Plan.suggested_daily_calories = some 1200 ∧
    minCalWarning ∈ planWarnings (recommend_calories_for_weight_loss 90 80 2000 70 "other") ∧
    planWarnings (recommend_calories_for_weight_loss 90 80 2000 70 "other")
      = [clampWarning, minCalWarning] := by
  have hD : daily_deficit_unclamped 90 80 70 = 1100 := by
    norm_num [daily_deficit_unclamped]
  have h6 := C6_minimum_intake_floor 90 80 2000 70 "other" (by norm_num)
  obtain ⟨h1, h2⟩ := h6.1 (by rw [hD]; norm_num)
  exact ⟨h1, h2, h6.2.2.2 (by rw [hD]; norm_num) (by norm_num)⟩

/-- C7: with target mass at or above current mass the planner returns the
message-only result (the `PlanResult.message` constructor carries no
deficit, intake, warning, weekly-loss or duration field), as a normal
return. -/
theorem C7_no_loss_message (cw tw tdee : ℚ) (days : ℤ) (sex : String) (h : cw ≤ tw) :
    recommend_calories_for_weight_loss cw tw tdee days sex =
      PlanResult.message
        "Target weight is not less than current weight. No calorie deficit needed." := by
  rw [recommend_calories_for_weight_loss, if_pos (by linarith : cw - tw ≤ 0)]

/-- Witness for C7 at (80, 90, 2500, 70). -/
theorem C7_no_loss_message_witness :
    recommend_calories_for_weight_loss 80 90 2500 70 "male" =
      PlanResult.message
        "Target weight is not less than current weight. No calorie deficit needed." :=
  C7_no_loss_message 80 90 2500 70 "male" (by norm_num)

/-! ## Claims about macros and TDEE -/

theorem abs_pyInt_sub_lt_one (x : ℚ) : |(pyInt x : ℚ) - x| < 1 := by
  rw [pyInt]
  split_ifs with hx
  · have h1 := Int.floor_le x
    have h2 := Int.lt_floor_add_one x
    rw [abs_lt]
    push_cast
    constructor <;> linarith
  · have h1 := Int.floor_le (-x)
    have h2 := Int.lt_floor_add_one (-x)
    rw [abs_lt]
    push_cast
    constructor <;> linarith

/-- C8: `recommend_macros(1500, 80, "3")` gives protein 144 g (576 kcal),
fat 47 g (420 kcal) and carbohydrate 126 g (504 kcal); and whenever the
carbohydrate residual is nonnegative, the reported protein, fat and
carbohydrate kilocalories sum to the suggested intake to within 2 kcal. -/
theorem C8_macro_breakdown :
    recommend_macros 1500 80 "3" =
      { protein_g := 144, fat_g := 47, carb_g := 126,
        protein_kcal := 576, fat_kcal := 420, carb_kcal := 504 } ∧
    ∀ (cal : ℤ) (w : ℚ) (k : String), 0 ≤ macroRemaining cal w k →
      |(((recommend_macros cal w k).protein_kcal + (recommend_macros cal w k).fat_kcal +
          (recommend_macros cal w k).carb_kcal : ℤ) : ℚ) - (cal : ℚ)| < 2 := by
  constructor
  · have hp : activity_to_protein "3" = 18/10 := by
      simp [activity_to_protein, activity_to_protein_table, List.lookup]
    rw [recommend_macros, hp]
    norm_num [pyRound, pyInt, MacroBreakdown.mk.injEq]
  · intro cal w k hrem
    rw [recommend_macros]
    simp only
    set P : ℤ := pyRound (activity_to_protein k * w) with hP
    set F : ℚ := (cal : ℚ) * (28/100) with hF
    set R : ℚ := (cal : ℚ) - (((P * 4 : ℤ) : ℚ) + F) with hR
    have hrem' : 0 ≤ R := by
      rw [hR, hF, hP]
      simpa [macroRemaining] using hrem
    have hite : (if 0 < R then R else 0) = R := by
      rcases eq_or_lt_of_le hrem' with h0 | h0
      · rw [if_neg (by rw [← h0]; exact lt_irrefl 0), ← h0]
      · rw [if_pos h0]
    rw [hite]
    have hfat := abs_pyInt_sub_lt_one F
    have hcarb := abs_pyInt_sub_lt_one R
    have hsum : (((P * 4 + pyInt F + pyInt R : ℤ)) : ℚ) - (cal : ℚ)
        = ((pyInt F : ℚ) - F) + ((pyInt R : ℚ) - R) := by
      rw [hR]
      push_cast
      ring
    calc |(((P * 4 + pyInt F + pyInt R : ℤ)) : ℚ) - (cal : ℚ)|
        = |((pyInt F : ℚ) - F) + ((pyInt R : ℚ) - R)| := by rw [hsum]
      _ ≤ |(pyInt F : ℚ) - F| + |(pyInt R : ℚ) - R| := abs_add _ _
      _ < 1 + 1 := add_lt_add hfat hcarb
      _ = 2 := by norm_num

/-- Witness for C8's residual-sum bound at (1500, 80, "3"), where the
residual is 504 ≥ 0. -/
theorem C8_macro_breakdown_witness :
    0 ≤ macroRemaining 1500 80 "3" ∧
    |(((recommend_macros 1500 80 "3").protein_kcal + (recommend_macros 1500 80 "3").fat_kcal +
        (recommend_macros 1500 80 "3").carb_kcal : ℤ) : ℚ) - (1500 : ℚ)| < 2 := by
  have hp : activity_to_protein "3" = 18/10 := by
    simp [activity_to_protein, activity_to_protein_table, List.lookup]
  have hrem : 0 ≤ macroRemaining 1500 80 "3" := by
    rw [macroRemaining, hp]
    norm_num [pyRound]
  exact ⟨hrem, C8_macro_breakdown.2 1500 80 "3" hrem⟩

/-- C9: `estimate_tdee` always returns the Mifflin-St Jeor BMR times the
activity multiplier, rounded to the nearest integer; the multiplier is
the table value for the known keys "1".."5" and falls back to the lowest
tier's 1.2 for every unknown key instead of failing. -/
theorem C9_tdee_multiplier :
    (∀ (w h : ℚ) (a : ℤ) (s k : String),
      estimate_tdee w h a s k
        = pyRound (bmr_mifflin_sex w h a s * activityMultiplier k)) ∧
    (activityMultiplier "1" = 12/10 ∧ activityMultiplier "2" = 1375/1000 ∧
     activityMultiplier "3" = 155/100 ∧ activityMultiplier "4" = 1725/1000 ∧
     activityMultiplier "5" = 19/10) ∧
    (∀ k : String, k ∉ (["1", "2", "3", "4", "5"] : List String) →
      activityMultiplier k = 12/10) := by
  refine ⟨fun w h a s k => rfl, ⟨rfl, rfl, rfl, rfl, rfl⟩, ?_⟩
  intro k hk
  simp only [List.mem_cons, List.mem_singleton, not_or] at hk
  obtain ⟨h1, h2, h3, h4, h5, -⟩ := hk
  have b1 : (k == "1") = false := beq_eq_false_iff_ne.mpr h1
  have b2 : (k == "2") = false := beq_eq_false_iff_ne.mpr h2
  have b3 : (k == "3") = false := beq_eq_false_iff_ne.mpr h3
  have b4 : (k == "4") = false := beq_eq_false_iff_ne.mpr h4
  have b5 : (k == "5") = false := beq_eq_false_iff_ne.mpr h5
  simp [activityMultiplier, ACTIVITY_LEVELS, List.lookup, b1, b2, b3, b4, b5]

/-- Witness for C9: the unknown key "7" falls back to the 1.2 multiplier,
and a fully concrete `estimate_tdee` call unfolds as BMR times
multiplier. -/
theorem C9_tdee_multiplier_witness :
    activityMultiplier "7" = 12/10 ∧
    estimate_tdee 70 175 30 "male" "7"
      = pyRound (bmr_mifflin_sex 70 175 30 "male" * activityMultiplier "7") :=
  ⟨C9_tdee_multiplier.2.2 "7" (by decide), C9_tdee_multiplier.1 70 175 30 "male" "7"⟩

/-! ## Parser helper lemmas -/

theorem dropWhile_eq_self_of_all {p : Char → Bool} {s : List Char}
    (h : ∀ c ∈ s, p c = false) : s.dropWhile p = s := by
  cases s with
  | nil => rfl
  | cons c cs =>
    rw [List.dropWhile_cons, h c (List.mem_cons_self c cs)]
    simp

theorem trimL_eq_self {s : List Char} (h : ∀ c ∈ s, c.isWhitespace = false) :
    trimL s = s := by
  rw [trimL, dropWhile_eq_self_of_all h,
    dropWhile_eq_self_of_all (fun c hc => h c (List.mem_reverse.mp hc)), List.reverse_reverse]

theorem lowerL_eq_self {s : List Char} (h : ∀ c ∈ s, lowerChar c = c) :
    lowerL s = s := by
  rw [lowerL]
  induction s with
  | nil => rfl
  | cons c cs ih =>
    rw [List.map_cons, h c (List.mem_cons_self c cs),
      ih fun x hx => h x (List.mem_cons_of_mem c hx)]

theorem charMap_eq_self {c d : Char} {s : List Char} (h : c ∉ s) :
    charMap c d s = s := by
  rw [charMap]
  induction s with
  | nil => rfl
  | cons x xs ih =>
    have hx : x ≠ c := fun e => h (e ▸ List.mem_cons_self x xs)
    rw [List.map_cons, if_neg hx, ih fun hm => h (List.mem_cons_of_mem x hm)]

theorem beginsWith_cons_false {p c : Char} {ps cs : List Char} (h : p ≠ c) :
    beginsWith (p :: ps) (c :: cs) = false := by
  rw [beginsWith, beq_eq_false_iff_ne.mpr h, Bool.false_and]

theorem replaceGo_zero_eq_self {p : Char} {ps repl s : List Char} (h : p ∉ s) :
    replaceGo (p :: ps) repl s 0 = s := by
  induction s with
  | nil => rfl
  | cons c cs ih =>
    have hc : p ≠ c := fun e => h (e ▸ List.mem_cons_self c cs)
    rw [replaceGo, if_neg fun hb => by
      rw [beginsWith_cons_false hc] at hb
      exact Bool.noConfusion hb.2]
    rw [ih fun hm => h (List.mem_cons_of_mem c hm)]

theorem replaceL_eq_self {p : Char} {ps repl s : List Char} (h : p ∉ s) :
    replaceL (p :: ps) repl s = s := replaceGo_zero_eq_self h

theorem splitWsAux_all_nonws {s : List Char} (acc : List Char)
    (h : ∀ c ∈ s, c.isWhitespace = false) :
    splitWsAux s acc = if acc.reverse ++ s = [] then [] else [acc.reverse ++ s] := by
  induction s generalizing acc with
  | nil =>
    rw [splitWsAux, List.append_nil]
    rcases Decidable.eq_or_ne acc [] with rfl | hne
    · rfl
    · rw [if_neg hne, if_neg (by simpa using hne)]
  | cons c cs ih =>
    have hc : c.isWhitespace = false := h c (List.mem_cons_self c cs)
    rw [splitWsAux, if_neg (by rw [hc]; exact Bool.noConfusion)]
    rw [ih (c :: acc) fun x hx => h x (List.mem_cons_of_mem c hx)]
    have hrev : (c :: acc).reverse ++ cs = acc.reverse ++ (c :: cs) := by
      rw [List.reverse_cons, List.append_assoc, List.singleton_append]
    rw [hrev]

theorem splitWs_singleton {s : List Char} (hne : s ≠ [])
    (h : ∀ c ∈ s, c.isWhitespace = false) : splitWs s = [s] := by
  rw [splitWs, splitWsAux_all_nonws [] h, List.reverse_nil, List.nil_append, if_neg hne]

theorem heightFromRaw_single (raw t : List Char) (v : ℚ)
    (hp : commaParts raw = [t]) (hv : pyFloat t = some v) :
    heightFromRaw raw = some (pyRoundTo 1 (if v ≤ 3 then v * 100 else v)) := by
  simp only [heightFromRaw, hp]
  rw [if_pos (show [t].length = 1 ∨ [t].length = 2 ∧ ([t].getD 1 []).headD ' ' = 'c' from
    Or.inl rfl)]
  simp only [List.headD]
  rw [hv]
  change (if [t].length = 1 ∧ v < 3 then some (pyRoundTo 1 (v * 100))
    else if [t].length = 1 ∧ v ≤ 3 then some (pyRoundTo 1 (v * 100))
    else some (pyRoundTo 1 v)) = some (pyRoundTo 1 (if v ≤ 3 then v * 100 else v))
  by_cases h1 : v < 3
  · rw [if_pos (show [t].length = 1 ∧ v < 3 from ⟨rfl, h1⟩), if_pos (le_of_lt h1)]
  · rw [if_neg (show ¬([t].length = 1 ∧ v < 3) from fun hc => h1 hc.2)]
    by_cases h2 : v ≤ 3
    · rw [if_pos (show [t].length = 1 ∧ v ≤ 3 from ⟨rfl, h2⟩), if_pos h2]
    · rw [if_neg (show ¬([t].length = 1 ∧ v ≤ 3) from fun hc => h2 hc.2), if_neg h2]

theorem parse_height_unfold (input : String) (raw0 : List Char)
    (h0 : lowerL (trimL input.toList) = raw0) (hne : raw0 ≠ []) :
    parse_height input = heightFromRaw (heightNormalize raw0) := by
  simp only [parse_height, h0, if_neg hne]

theorem parse_weight_unfold (input : String) (raw0 : List Char)
    (h0 : lowerL (trimL input.toList) = raw0) (hne : raw0 ≠ []) :
    parse_weight input = weightFromParts (commaParts (weightNormalize raw0)) := by
  simp only [parse_weight, h0, if_neg hne]

theorem digitDot_facts (c : Char) (h : c ∈ digitDotChars) :
    c.isWhitespace = false ∧ lowerChar c = c ∧ c ≠ '"' ∧ c ≠ '\'' ∧ c ≠ 'f' ∧
      c ≠ 'm' ∧ c ≠ 'c' ∧ c ≠ ',' := by
  fin_cases h <;> exact ⟨rfl, rfl, by decide, by decide, by decide, by decide, by decide,
    by decide⟩

/-! ## Claims about the height parser -/

/-- General fact behind claim C2: how `parse_height` treats a single bare
numeric token (digits and periods only). -/
theorem parse_height_bare_token (t : List Char) (v : ℚ)
    (hall : ∀ c ∈ t, c ∈ digitDotChars) (hv : pyFloat t = some v) :
    parse_height (String.mk t) = some (pyRoundTo 1 (if v ≤ 3 then v * 100 else v)) := by
  have hne : t ≠ [] := by
    rintro rfl
    rw [show pyFloat [] = none from rfl] at hv
    exact Option.noConfusion hv
  have hfacts := fun c hc => digitDot_facts c (hall c hc)
  have hws : ∀ c ∈ t, c.isWhitespace = false := fun c hc => (hfacts c hc).1
  have h0 : lowerL (trimL (String.mk t).toList) = t := by
    rw [show (String.mk t).toList = t from rfl, trimL_eq_self hws,
      lowerL_eq_self fun c hc => (hfacts c hc).2.1]
  rw [parse_height_unfold (String.mk t) t h0 hne]
  have h1 : '"' ∉ t := fun hm => (hfacts _ hm).2.2.1 rfl
  have h2 : '\'' ∉ t := fun hm => (hfacts _ hm).2.2.2.1 rfl
  have h3 : 'f' ∉ t := fun hm => (hfacts _ hm).2.2.2.2.1 rfl
  have h4 : 'm' ∉ t := fun hm => (hfacts _ hm).2.2.2.2.2.1 rfl
  have h5 : 'c' ∉ t := fun hm => (hfacts _ hm).2.2.2.2.2.2.1 rfl
  have h6 : ',' ∉ t := fun hm => (hfacts _ hm).2.2.2.2.2.2.2 rfl
  have hnorm : heightNormalize t = t := by
    rw [heightNormalize,
      show "\"".toList = ['"'] from rfl,
      show "'".toList = ['\''] from rfl,
      show "feet".toList = ['f', 'e', 'e', 't'] from rfl,
      show "meter".toList = ['m', 'e', 't', 'e', 'r'] from rfl,
      show "cms".toList = ['c', 'm', 's'] from rfl,
      replaceL_eq_self h1, replaceL_eq_self h2, replaceL_eq_self h3,
      replaceL_eq_self h4, replaceL_eq_self h5]
  rw [hnorm]
  exact heightFromRaw_single t t v
    (by rw [commaParts, charMap_eq_self h6, splitWs_singleton hne hws]) hv

/-- C2 (amended): a single bare numeric token (digits and periods) parses
as meters (value times 100) whenever its value is less than OR EQUAL to
3.0, and as centimetres only when its value strictly exceeds 3.0 — the
source's `elif num <= 3` branch (line 97) also sends the boundary value 3
through the meter interpretation, so "3" yields 300.0 cm, not 3.0 cm,
while "1.75" yields 175.0 cm. -/
theorem C2_bare_number_meter_threshold (t : List Char) (v : ℚ)
    (hall : ∀ c ∈ t, c ∈ digitDotChars) (hv : pyFloat t = some v) :
    parse_height (String.mk t) = some (pyRoundTo 1 (if v ≤ 3 then v * 100 else v)) :=
  parse_height_bare_token t v hall hv

/-- Witness for C2: "1.75" is a bare numeric token with value 7/4 ≤ 3,
and it parses to 175.0 cm. -/
theorem C2_bare_number_meter_threshold_witness :
    parse_height "1.75" = some (pyRoundTo 1 (if (7/4 : ℚ) ≤ 3 then 7/4 * 100 else 7/4)) ∧
    parse_height "1.75" = some 175 := by
  have hv : pyFloat ['1', '.', '7', '5'] = some (7/4) := by
    have hf : floatParse ['1', '.', '7', '5'] = some (false, 1, 75, 2) := by decide
    rw [pyFloat, hf]
    norm_num
  have h := C2_bare_number_meter_threshold ['1', '.', '7', '5'] (7/4) (by decide) hv
  refine ⟨h, h.trans ?_⟩
  norm_num [pyRoundTo, pyRound]

/-- C2 counterexample: the input "3" parses to 300.0 cm (the `<= 3`
branch treats it as 3 meters), not to 3.0 cm as the claim states. -/
theorem C2_counterexample :
    parse_height "3" = some 300 ∧ (300 : ℚ) ≠ 3 := by
  refine ⟨?_, by norm_num⟩
  have hv : pyFloat ['3'] = some 3 := by
    have hf : floatParse ['3'] = some (false, 3, 0, 0) := by decide
    rw [pyFloat, hf]
    norm_num
  have h := parse_height_bare_token ['3'] 3 (by decide) hv
  refine h.trans ?_
  norm_num [pyRoundTo, pyRound]

/-- C3 (code bug): `parse_height` accepts the input "0" and returns
0.0 cm — it never checks positivity (unlike `parse_weight`, lines 73-75),
so the parser can return a non-positive canonical length, which the
caller then divides by in the BMI computation. -/
theorem C3_zero_height_accepted :
    parse_height "0" = some 0 ∧ ¬(0 < (0 : ℚ)) ∧ parse_height "-1" = some (-100) := by
  refine ⟨?_, by norm_num, ?_⟩
  · have hv : pyFloat ['0'] = some 0 := by
      have hf : floatParse ['0'] = some (false, 0, 0, 0) := by decide
      rw [pyFloat, hf]
      norm_num
    have h := parse_height_bare_token ['0'] 0 (by decide) hv
    refine h.trans ?_
    norm_num [pyRoundTo, pyRound]
  · rw [parse_height_unfold "-1" ['-', '1'] (by decide) (by decide),
      show heightNormalize ['-', '1'] = ['-', '1'] from by decide]
    have hv : pyFloat ['-', '1'] = some (-1) := by
      have hf : floatParse ['-', '1'] = some (true, 1, 0, 0) := by decide
      rw [pyFloat, hf]
      norm_num
    rw [heightFromRaw_single ['-', '1'] ['-', '1'] (-1) (by decide) hv]
    norm_num [pyRoundTo, pyRound]

/-- C4 (code bug): an explicit meter suffix is rejected: "1.75 m" and
"1.75 meter" both fail to parse (the Python loop re-prompts, even though
its own error message suggests the format '1.75 m'), while the bare
"1.75" parses to 175.0 cm via the magnitude heuristic. -/
theorem C4_meter_suffix_rejected :
    parse_height "1.75 m" = none ∧ parse_height "1.75 meter" = none ∧
    parse_height "1.75" = some 175 := by
  refine ⟨by decide, by decide, ?_⟩
  have hv : pyFloat ['1', '.', '7', '5'] = some (7/4) := by
    have hf : floatParse ['1', '.', '7', '5'] = some (false, 1, 75, 2) := by decide
    rw [pyFloat, hf]
    norm_num
  have h := parse_height_bare_token ['1', '.', '7', '5'] (7/4) (by decide) hv
  refine h.trans ?_
  norm_num [pyRoundTo, pyRound]

/-! ## Comma-substitution commutation lemmas -/

theorem charMap_isWhitespace (x : Char) :
    (if x = ',' then '.' else x).isWhitespace = x.isWhitespace := by
  by_cases hx : x = ','
  · subst hx; rfl
  · rw [if_neg hx]
theorem charMap_nil (c d : Char) : charMap c d [] = [] := rfl

theorem charMap_cons (c d x : Char) (xs : List Char) :
    charMap c d (x :: xs) = (if x = c then d else x) :: charMap c d xs := rfl

theorem dropWhile_ws_charMap (s : List Char) :
    (charMap ',' '.' s).dropWhile Char.isWhitespace
      = charMap ',' '.' (s.dropWhile Char.isWhitespace) := by
  induction s with
  | nil => rfl
  | cons x xs ih =>
    rw [charMap_cons, List.dropWhile_cons, List.dropWhile_cons, charMap_isWhitespace x]
    by_cases h : x.isWhitespace = true
    · simp only [if_pos h]
      exact ih
    · simp only [if_neg h]
      rw [charMap_cons]

theorem reverse_charMap (s : List Char) :
    (charMap ',' '.' s).reverse = charMap ',' '.' s.reverse := by
  simp only [charMap, List.map_reverse]

theorem trimL_charMap (s : List Char) :
    trimL (charMap ',' '.' s) = charMap ',' '.' (trimL s) := by
  rw [trimL, trimL, dropWhile_ws_charMap, reverse_charMap, dropWhile_ws_charMap,
    reverse_charMap]

theorem lookup_mem_snd {l : List (Char × Char)} {k v : Char}
    (h : l.lookup k = some v) : v ∈ l.map Prod.snd := by
  induction l with
  | nil => exact Option.noConfusion h
  | cons a rest ih =>
    rw [List.lookup] at h
    by_cases hk : (k == a.1) = true
    · rw [hk] at h
      have h2 : some a.2 = some v := h
      cases h2
      simp
    · rw [Bool.not_eq_true] at hk
      rw [hk] at h
      have h2 : List.lookup k rest = some v := h
      exact List.mem_cons_of_mem a.2 (ih h2)

theorem lowerChar_ne_comma {x : Char} (hx : x ≠ ',') : lowerChar x ≠ ',' := by
  rw [lowerChar]
  cases h : lowerTable.lookup x with
  | none => simpa using hx
  | some v =>
    have hv := lookup_mem_snd h
    rw [Option.getD_some]
    fin_cases hv <;> decide

theorem lowerChar_comma_comm (x : Char) :
    lowerChar (if x = ',' then '.' else x) = if lowerChar x = ',' then '.' else lowerChar x := by
  by_cases hx : x = ','
  · subst hx; rfl
  · rw [if_neg hx, if_neg (lowerChar_ne_comma hx)]

theorem lowerL_charMap (s : List Char) :
    lowerL (charMap ',' '.' s) = charMap ',' '.' (lowerL s) := by
  simp only [lowerL, charMap, List.map_map]
  refine List.map_congr_left fun x _ => ?_
  simpa using lowerChar_comma_comm x

theorem beginsWith_charMap : ∀ (pat : List Char), ',' ∉ pat → '.' ∉ pat →
    ∀ (s : List Char), beginsWith pat (charMap ',' '.' s) = beginsWith pat s
  | [], _, _, _ => rfl
  | _ :: _, _, _, [] => rfl
  | p :: ps, hc, hd, x :: xs => by
    have hp1 : p ≠ ',' := fun e => hc (e ▸ List.mem_cons_self p ps)
    have hp2 : p ≠ '.' := fun e => hd (e ▸ List.mem_cons_self p ps)
    have hpx : (p == (if x = ',' then '.' else x)) = (p == x) := by
      by_cases hx : x = ','
      · subst hx
        rw [if_pos rfl, beq_eq_false_iff_ne.mpr hp2, beq_eq_false_iff_ne.mpr hp1]
      · rw [if_neg hx]
    rw [charMap_cons]
    show (p == (if x = ',' then '.' else x) && beginsWith ps (charMap ',' '.' xs))
        = (p == x && beginsWith ps xs)
    rw [hpx, beginsWith_charMap ps (fun hm => hc (List.mem_cons_of_mem p hm))
      (fun hm => hd (List.mem_cons_of_mem p hm)) xs]

theorem replaceGo_charMap (pat repl : List Char) (hc : ',' ∉ pat) (hd : '.' ∉ pat)
    (hr : ',' ∉ repl) :
    ∀ (s : List Char) (k : ℕ),
      replaceGo pat repl (charMap ',' '.' s) k = charMap ',' '.' (replaceGo pat repl s k)
  | [], _ => rfl
  | x :: xs, Nat.succ n => by
    rw [charMap_cons]
    show replaceGo pat repl (charMap ',' '.' xs) n
        = charMap ',' '.' (replaceGo pat repl xs n)
    exact replaceGo_charMap pat repl hc hd hr xs n
  | x :: xs, 0 => by
    rw [charMap_cons]
    show (if pat ≠ [] ∧ beginsWith pat ((if x = ',' then '.' else x) :: charMap ',' '.' xs)
        then repl ++ replaceGo pat repl (charMap ',' '.' xs) (pat.length - 1)
        else (if x = ',' then '.' else x) :: replaceGo pat repl (charMap ',' '.' xs) 0)
      = charMap ',' '.' (if pat ≠ [] ∧ beginsWith pat (x :: xs)
        then repl ++ replaceGo pat repl xs (pat.length - 1)
        else x :: replaceGo pat repl xs 0)
    have hb : beginsWith pat ((if x = ',' then '.' else x) :: charMap ',' '.' xs)
        = beginsWith pat (x :: xs) := by
      rw [show ((if x = ',' then '.' else x) :: charMap ',' '.' xs)
          = charMap ',' '.' (x :: xs) from rfl]
      exact beginsWith_charMap pat hc hd (x :: xs)
    by_cases hcond : pat ≠ [] ∧ beginsWith pat (x :: xs) = true
    · rw [if_pos hcond, if_pos (by rw [hb]; exact hcond)]
      have h1 : charMap ',' '.' (repl ++ replaceGo pat repl xs (pat.length - 1))
          = charMap ',' '.' repl ++ charMap ',' '.' (replaceGo pat repl xs (pat.length - 1)) := by
        simp [charMap, List.map_append]
      rw [h1, charMap_eq_self hr, replaceGo_charMap pat repl hc hd hr xs (pat.length - 1)]
    · rw [if_neg hcond, if_neg (by rw [hb]; exact hcond)]
      rw [replaceGo_charMap pat repl hc hd hr xs 0, charMap_cons]

theorem replaceL_charMap {pat repl : List Char} (hc : ',' ∉ pat) (hd : '.' ∉ pat)
    (hr : ',' ∉ repl) (s : List Char) :
    replaceL pat repl (charMap ',' '.' s) = charMap ',' '.' (replaceL pat repl s) :=
  replaceGo_charMap pat repl hc hd hr s 0

theorem charMap_comma_idem (s : List Char) :
    charMap ',' '.' (charMap ',' '.' s) = charMap ',' '.' s := by
  simp only [charMap, List.map_map]
  refine List.map_congr_left fun x _ => ?_
  by_cases hx : x = ','
  · subst hx; rfl
  · simp [hx]

theorem commaParts_charMap (s : List Char) :
    commaParts (charMap ',' '.' s) = commaParts s := by
  rw [commaParts, commaParts, charMap_comma_idem]

theorem containsSub_charMap {pat : List Char} (hc : ',' ∉ pat) (hd : '.' ∉ pat) :
    ∀ s : List Char, containsSub pat (charMap ',' '.' s) = containsSub pat s
  | [] => rfl
  | x :: xs => by
    rw [charMap_cons]
    show (beginsWith pat ((if x = ',' then '.' else x) :: charMap ',' '.' xs) ||
        containsSub pat (charMap ',' '.' xs))
      = (beginsWith pat (x :: xs) || containsSub pat xs)
    rw [show ((if x = ',' then '.' else x) :: charMap ',' '.' xs)
        = charMap ',' '.' (x :: xs) from rfl,
      beginsWith_charMap pat hc hd (x :: xs), containsSub_charMap hc hd xs]

theorem weightNormalize_charMap (s : List Char) :
    weightNormalize (charMap ',' '.' s) = charMap ',' '.' (weightNormalize s) := by
  rw [weightNormalize, weightNormalize,
    replaceL_charMap (by decide) (by decide) (by decide),
    replaceL_charMap (by decide) (by decide) (by decide)]

theorem heightNormalize_charMap (s : List Char) :
    heightNormalize (charMap ',' '.' s) = charMap ',' '.' (heightNormalize s) := by
  rw [heightNormalize, heightNormalize,
    replaceL_charMap (by decide) (by decide) (by decide),
    replaceL_charMap (by decide) (by decide) (by decide),
    replaceL_charMap (by decide) (by decide) (by decide),
    replaceL_charMap (by decide) (by decide) (by decide),
    replaceL_charMap (by decide) (by decide) (by decide)]

theorem heightFtBranch_charMap (raw : List Char) (parts : List (List Char))
    (hft : containsSub "ft".toList raw = false)
    (hfoot : containsSub "foot".toList raw = false) :
    heightFtBranch (charMap ',' '.' raw) parts = heightFtBranch raw parts := by
  rw [heightFtBranch, heightFtBranch,
    containsSub_charMap (by decide) (by decide) raw,
    containsSub_charMap (by decide) (by decide) raw, hft, hfoot]
  simp

theorem heightFromRaw_charMap (raw : List Char)
    (hft : containsSub "ft".toList raw = false)
    (hfoot : containsSub "foot".toList raw = false) :
    heightFromRaw (charMap ',' '.' raw) = heightFromRaw raw := by
  simp only [heightFromRaw, commaParts_charMap]
  split_ifs with h
  · rfl
  · exact heightFtBranch_charMap raw (commaParts raw) hft hfoot

/-- C10 (amended): commas are substituted by periods before tokenization
in `parse_weight` (always) and in `parse_height`'s initial tokenization,
so comma and period inputs parse identically in every path except
`parse_height`'s foot/inch branch, which re-tokenizes the raw string
without the comma substitution (src/bmi_bot.py line 108 splits `raw`, not
the comma-substituted string), so e.g. "1,5 ft" is rejected although
"1.5 ft" parses. -/
theorem C10_comma_as_decimal_point :
    (∀ s : String, parse_weight (commaToDot s) = parse_weight s) ∧
    (∀ s : String,
      containsSub "ft".toList (heightNormalize (lowerL (trimL s.toList))) = false →
      containsSub "foot".toList (heightNormalize (lowerL (trimL s.toList))) = false →
      parse_height (commaToDot s) = parse_height s) := by
  have hpre : ∀ s : String,
      lowerL (trimL (commaToDot s).toList) = charMap ',' '.' (lowerL (trimL s.toList)) :=
    fun s => by
      rw [show (commaToDot s).toList = charMap ',' '.' s.toList from rfl, trimL_charMap,
        lowerL_charMap]
  constructor
  · intro s
    simp only [parse_weight, hpre s]
    by_cases h0 : lowerL (trimL s.toList) = []
    · rw [h0, charMap_nil]
    · rw [if_neg h0, if_neg fun hm => h0 (by simpa [charMap] using hm)]
      rw [weightNormalize_charMap, commaParts_charMap]
  · intro s hft hfoot
    simp only [parse_height, hpre s]
    by_cases h0 : lowerL (trimL s.toList) = []
    · rw [h0, charMap_nil]
    · rw [if_neg h0, if_neg fun hm => h0 (by simpa [charMap] using hm)]
      rw [heightNormalize_charMap, heightFromRaw_charMap _ hft hfoot]

theorem ftScan_skip (prev : Option (List Char)) (t : List Char) (rest : List (List Char))
    (ft : Option ℚ) (inch : ℚ) (h1 : ¬t = "ft".toList) (h2 : ¬t = "in".toList) :
    ftScan prev (t :: rest) ft inch = ftScan (some t) rest ft inch := by
  show (if t = "ft".toList then
      match prev with
      | none => ftScan (some t) rest ft inch
      | some p =>
        match pyFloat p with
        | none => none
        | some v => ftScan (some t) rest (some v) inch
    else if t = "in".toList then
      match prev with
      | none => ftScan (some t) rest ft inch
      | some p =>
        match pyFloat p with
        | none => none
        | some v => ftScan (some t) rest ft v
    else ftScan (some t) rest ft inch) = ftScan (some t) rest ft inch
  rw [if_neg h1, if_neg h2]

theorem ftScan_ft (p t : List Char) (rest : List (List Char)) (ft : Option ℚ)
    (inch v : ℚ) (ht : t = "ft".toList) (hv : pyFloat p = some v) :
    ftScan (some p) (t :: rest) ft inch = ftScan (some t) rest (some v) inch := by
  subst ht
  show (if "ft".toList = "ft".toList then
      match pyFloat p with
      | none => none
      | some v => ftScan (some "ft".toList) rest (some v) inch
    else if "ft".toList = "in".toList then
      match pyFloat p with
      | none => none
      | some v => ftScan (some "ft".toList) rest ft v
    else ftScan (some "ft".toList) rest ft inch)
    = ftScan (some "ft".toList) rest (some v) inch
  rw [if_pos rfl, hv]

theorem weightFromParts_pair (p1 p2 : List Char) (rest : List (List Char)) (v : ℚ)
    (hv : pyFloat p1 = some v) :
    weightFromParts (p1 :: p2 :: rest) = weightFromUnit v p2 := by
  rw [weightFromParts]
  change (match pyFloat p1 with
    | none => none
    | some val => weightFromUnit val p2) = _
  rw [hv]

/-- C10 counterexample: "1,5 ft" is rejected while its period twin
"1.5 ft" parses to 45.7 cm — the foot/inch branch re-tokenizes the raw
string with the comma still in place, so `float("1,5")` raises. -/
theorem C10_counterexample :
    parse_height "1,5 ft" = none ∧ parse_height "1.5 ft" = some (457/10) ∧
    commaToDot "1,5 ft" = "1.5 ft" := by
  refine ⟨by decide, ?_, by decide⟩
  have hpf : pyFloat ['1', '.', '5'] = some (3/2) := by
    have hf : floatParse ['1', '.', '5'] = some (false, 1, 5, 1) := by decide
    rw [pyFloat, hf]
    norm_num
  have hscan : ftScan none [['1', '.', '5'], ['f', 't']] none 0 = some (some (3/2), 0) := by
    rw [ftScan_skip none ['1', '.', '5'] [['f', 't']] none 0 (by decide) (by decide),
      ftScan_ft ['1', '.', '5'] ['f', 't'] [] none 0 (3/2) (by decide) hpf]
    rfl
  have hbranch : heightFtBranch ['1', '.', '5', ' ', 'f', 't'] [['1', '.', '5'], ['f', 't']]
      = some (pyRoundTo 1 (3/2 * (3048/100) + 0 * (254/100))) := by
    simp only [heightFtBranch]
    rw [if_pos (by decide), show splitWs (replaceL "in".toList " in ".toList
      (replaceL "ft".toList " ft ".toList ['1', '.', '5', ' ', 'f', 't']))
        = [['1', '.', '5'], ['f', 't']] from by decide, hscan]
  rw [parse_height_unfold "1.5 ft" ['1', '.', '5', ' ', 'f', 't'] (by decide) (by decide),
    show heightNormalize ['1', '.', '5', ' ', 'f', 't'] = ['1', '.', '5', ' ', 'f', 't']
      from by decide]
  simp only [heightFromRaw]
  rw [show commaParts ['1', '.', '5', ' ', 'f', 't'] = [['1', '.', '5'], ['f', 't']]
      from by decide, if_neg (by decide), hbranch]
  norm_num [pyRoundTo, pyRound]

/-- Witness for C10 at "70,5 kg" / "70.5 kg" and "1,75" / "1.75". -/
theorem C10_comma_as_decimal_point_witness :
    parse_weight "70,5 kg" = parse_weight "70.5 kg" ∧
    parse_weight "70.5 kg" = some (141/2) ∧
    parse_height "1,75" = parse_height "1.75" ∧
    parse_height "1.75" = some 175 := by
  refine ⟨?_, ?_, ?_, ?_⟩
  · have h := C10_comma_as_decimal_point.1 "70,5 kg"
    rw [show commaToDot "70,5 kg" = "70.5 kg" from by decide] at h
    exact h.symm
  · have hv : pyFloat ['7', '0', '.', '5'] = some (141/2) := by
      have hf : floatParse ['7', '0', '.', '5'] = some (false, 70, 5, 1) := by decide
      rw [pyFloat, hf]
      norm_num
    rw [parse_weight_unfold "70.5 kg" ['7', '0', '.', '5', ' ', 'k', 'g'] (by decide)
        (by decide),
      show weightNormalize ['7', '0', '.', '5', ' ', 'k', 'g']
        = ['7', '0', '.', '5', ' ', 'k', 'g'] from by decide,
      show commaParts ['7', '0', '.', '5', ' ', 'k', 'g']
        = [['7', '0', '.', '5'], ['k', 'g']] from by decide,
      weightFromParts_pair ['7', '0', '.', '5'] ['k', 'g'] [] (141/2) hv,
      weightFromUnit, if_pos (by decide), if_neg (by norm_num : ¬((141 : ℚ)/2 ≤ 0))]
    norm_num [pyRoundTo, pyRound]
  · have h := C10_comma_as_decimal_point.2 "1,75" (by decide) (by decide)
    rw [show commaToDot "1,75" = "1.75" from by decide] at h
    exact h.symm
  · have hv : pyFloat ['1', '.', '7', '5'] = some (7/4) := by
      have hf : floatParse ['1', '.', '7', '5'] = some (false, 1, 75, 2) := by decide
      rw [pyFloat, hf]
      norm_num
    have h := parse_height_bare_token ['1', '.', '7', '5'] (7/4) (by decide) hv
    refine h.trans ?_
    norm_num [pyRoundTo, pyRound]
